import Mathlib

/-!
Verification of the Tobias variable-calculation backend.

This file is a shallow embedding, in Lean 4, of the credit-scoring-variable
engine of the repository: the SQLAlchemy data model
(src/backend/app/models/variables.py) and the FastAPI route handlers
(src/Backend/app/api/v1/variables.py, with the create/update/get/delete
handlers cross-checked against the parallel draft src/app/api/v1/variables.py,
whose logic is identical up to error-message strings).

Modelling conventions:
- A database is a record of four tables (lists of rows) plus the surrogate-key
  counter used when a new Variable row is flushed.
- Each route handler becomes a pure function from the database and the request
  payload to `Except ApiErr (DB x response)`.  An `Except.error` models an
  HTTP error response or an uncaught Python exception; in both cases the
  transaction is not committed, so the caller keeps the unchanged database.
- The raw batch SQL that `calculate_variables` builds is embedded twice, in
  the style of a syntax/semantics split: `batchSql` reproduces the statement
  text exactly as the Python string formatting produces it, and the semantic
  functions (`evalFrags`, `insertRows`) model what running that statement does
  to the `variable_results` table.  The evaluation of an individual SQL
  fragment against the backing store is abstracted as an oracle
  `ev : String -> Option String` (`none` models the store raising an error for
  that fragment); fragment evaluation is the only part of the engine that
  cannot be embedded directly, and no theorem below depends on what `ev`
  returns for any particular text.
- Surrogate primary keys of version/result/execution rows are omitted: no
  route handler ever reads them.
-/

deriving instance DecidableEq for Except

namespace Tobias

/-- Row of the `variables` table (model `Variable`). -/
structure Variable where
  id : Nat
  name : String
  description : String
  calculation_type : String
  is_active : Bool
  created_by : String
deriving DecidableEq, Repr

/-- Row of the `variable_versions` table (model `VariableVersion`).
The Backend draft of the model names the last three columns
`version`/`code`/`created_by`; the draft that `update_variable` and the
calculation engine actually read uses `version_number`/`sql_script`/`edited_by`,
which we keep. -/
structure VariableVersion where
  variable_id : Nat
  version_number : Nat
  sql_script : String
  change_reason : String
  edited_by : String
deriving DecidableEq, Repr

/-- Row of the `variable_results` table (model `VariableResult`), which carries
`UniqueConstraint(application_id, variable_id)` (`uq_app_variable`). -/
structure VariableResult where
  application_id : String
  variable_id : Nat
  value : String
  calculated_by : String
deriving DecidableEq, Repr

/-- Row of the `variable_executions` audit table (model `VariableExecution`). -/
structure VariableExecution where
  application_id : String
  variable_id : Nat
  executed_by : String
  result : String
deriving DecidableEq, Repr

/-- The persistent state: the four tables plus the id counter backing the
`variables.id` primary key. -/
structure DB where
  vars : List Variable  -- the `variables` table (`variables` is a reserved word in Lean)
  variable_versions : List VariableVersion
  variable_results : List VariableResult
  variable_executions : List VariableExecution
  next_id : Nat
deriving DecidableEq, Repr

/-- Outcomes that abort a request without committing: the explicit
`HTTPException`s raised by the handlers, plus the two uncaught exception
classes the calculation path can hit (`IntegrityError` from the
`uq_app_variable` unique constraint, a store error from a failing fragment)
and the `AttributeError` that `update_variable` raises when it dereferences
`latest.version_number` with `latest = None`. -/
inductive ApiErr where
  | badRequest : String → ApiErr
  | notFound : String → ApiErr
  | integrityViolation : ApiErr
  | executionFailed : ApiErr
  | noneAttribute : ApiErr
deriving DecidableEq, Repr

/-- Payload of `POST /api/variables/` (schema `VariableCreate`). -/
structure VariableCreate where
  name : String
  description : String
  calculation_type : String
  sql_script : String
  created_by : String
deriving DecidableEq, Repr

/-- Payload of `PUT /api/variables/{id}` (schema `VariableUpdate`). -/
structure VariableUpdate where
  sql_script : String
  change_reason : String
  edited_by : String
deriving DecidableEq, Repr

/-- Payload of `POST /api/variables/calculate` (schema `VariableCalcRequest`). -/
structure VariableCalcRequest where
  app_id : String
  variable_ids : List Nat
deriving DecidableEq, Repr

/-- The JSON object `calculate_variables` returns on success. -/
structure CalcResponse where
  status : String
  application_id : String
  calculated_variables : List Nat
deriving DecidableEq, Repr

/-- Handler for `POST /api/variables/`: reject when any row (active or not) already has the
requested name, else flush a `Variable` and commit it together with its
version-1 `VariableVersion`. -/
def create_variable (db : DB) (p : VariableCreate) : Except ApiErr (DB × Variable) :=
  match db.vars.find? (fun v => v.name == p.name) with
  | some _ => .error (.badRequest "Variable with this name already exists")
  | none =>
    let var : Variable :=
      { id := db.next_id, name := p.name, description := p.description,
        calculation_type := p.calculation_type, is_active := true,
        created_by := p.created_by }
    let ver : VariableVersion :=
      { variable_id := var.id, version_number := 1, sql_script := p.sql_script,
        change_reason := "Initial version", edited_by := p.created_by }
    .ok ({ db with
            vars := db.vars ++ [var],
            variable_versions := db.variable_versions ++ [ver],
            next_id := db.next_id + 1 }, var)

/-- Handler for `GET /api/variables/`: only rows with `is_active = True`. -/
def get_all_variables (db : DB) : List Variable :=
  db.vars.filter (fun v => v.is_active)

/-- Handler for `GET /api/variables/{id}`: `filter_by(id=variable_id).first()`; 404 when
absent.  The query does not constrain `is_active`. -/
def get_variable (db : DB) (variable_id : Nat) : Except ApiErr Variable :=
  match db.vars.find? (fun v => v.id == variable_id) with
  | none => .error (.notFound "Variable not found")
  | some var => .ok var

/-- The query `.order_by(version_number.desc()).first()` over the versions of one
variable: an element of maximal `version_number`, `none` when the variable has
no versions. -/
def pickBest (a : VariableVersion) : List VariableVersion → VariableVersion
  | [] => a
  | w :: r => pickBest (if a.version_number < w.version_number then w else a) r

/-- See `pickBest`. -/
def latestVersionOf (vers : List VariableVersion) (vid : Nat) : Option VariableVersion :=
  match vers.filter (fun v => v.variable_id == vid) with
  | [] => none
  | v :: rest => some (pickBest v rest)

/-- Handler for `PUT /api/variables/{id}`: look up the active variable (404 otherwise),
read the latest version row, and append a new version row numbered
`latest.version_number + 1`.  When the variable has no versions the handler
dereferences `None` (modelled as `.noneAttribute`). -/
def update_variable (db : DB) (variable_id : Nat) (p : VariableUpdate) :
    Except ApiErr (DB × Variable) :=
  match db.vars.find? (fun v => v.id == variable_id && v.is_active) with
  | none => .error (.notFound "Variable not found")
  | some var =>
    match latestVersionOf db.variable_versions variable_id with
    | none => .error .noneAttribute
    | some latest =>
      let nv : VariableVersion :=
        { variable_id := var.id, version_number := latest.version_number + 1,
          sql_script := p.sql_script, change_reason := p.change_reason,
          edited_by := p.edited_by }
      .ok ({ db with variable_versions := db.variable_versions ++ [nv] }, var)

/-- Handler for `DELETE /api/variables/{id}`: soft delete, clearing `is_active` on the
found row. -/
def delete_variable (db : DB) (variable_id : Nat) : Except ApiErr DB :=
  match db.vars.find? (fun v => v.id == variable_id) with
  | none => .error (.notFound "Variable not found")
  | some _ =>
    .ok { db with
            vars := db.vars.map
              (fun v => if v.id == variable_id then { v with is_active := false } else v) }

/-- The aggregate `max(version_number)` grouped by variable, over the whole versions table:
the aggregate computed by the subquery in `calculate_variables`. -/
def maxVersionNum (vers : List VariableVersion) (vid : Nat) : Nat :=
  (vers.filter (fun v => v.variable_id == vid)).foldl
    (fun m v => max m v.version_number) 0

/-- The rows produced by joining `variable_versions` with the grouped
`max(version_number)` subquery restricted to the requested ids: all version
rows of a requested variable that carry its maximal version number. -/
def latestVersions (vers : List VariableVersion) (ids : List Nat) : List VariableVersion :=
  vers.filter
    (fun v => ids.contains v.variable_id && v.version_number == maxVersionNum vers v.variable_id)

/-! ### The batch SQL text built by `calculate_variables`

Python renders `var_id` (an `int`) in decimal inside the f-strings; we embed
that rendering as `natToDec` (fuel-structured so that it reduces by `decide`). -/

/-- The decimal digit character of `d < 10`. -/
def digitChar (d : Nat) : Char :=
  if d = 0 then '0' else if d = 1 then '1' else if d = 2 then '2'
  else if d = 3 then '3' else if d = 4 then '4' else if d = 5 then '5'
  else if d = 6 then '6' else if d = 7 then '7' else if d = 8 then '8' else '9'

/-- Inverse of `digitChar` on decimal digits. -/
def digitVal (c : Char) : Nat :=
  if c = '0' then 0 else if c = '1' then 1 else if c = '2' then 2
  else if c = '3' then 3 else if c = '4' then 4 else if c = '5' then 5
  else if c = '6' then 6 else if c = '7' then 7 else if c = '8' then 8 else 9

/-- Decimal digits of `n`, most significant first; the first argument is fuel
(any fuel `> n` is enough). -/
def decDigitsAux : Nat → Nat → List Char
  | 0, _ => []
  | f + 1, n =>
    if n < 10 then [digitChar n]
    else decDigitsAux f (n / 10) ++ [digitChar (n % 10)]

/-- Python `str(n)` for a natural number. -/
def natToDec (n : Nat) : String :=
  ⟨decDigitsAux (n + 1) n⟩

/-- The name of the per-variable CTE: the fixed prefix `var_` plus the decimal
variable id, exactly as the f-string `var_{var_id}` renders it. -/
def cteName (vid : Nat) : String :=
  "var_" ++ natToDec vid

/-- The characters Python `str.strip()` removes. -/
def isPySpace (c : Char) : Bool :=
  c == ' ' || c == '\t' || c == '\n' || c == '\r' || c == '\x0b' || c == '\x0c'

/-- Python `sql_script.strip().rstrip(";")`: trim surrounding whitespace, then drop
every trailing statement terminator.  Implemented over the character list so
that it evaluates inside the kernel. -/
def normalizeFrag (s : String) : String :=
  let l := s.data.dropWhile isPySpace
  let r := l.reverse.dropWhile isPySpace
  ⟨(r.dropWhile (fun c => c == ';')).reverse⟩

/-- One element of `cte_blocks`: the f-string (after its trailing `.strip()`)
that wraps one normalized fragment as a named CTE.  The application id appears
only as the placeholder `:app_id`, never as a value. -/
def cteBlock (vid : Nat) (code : String) : String :=
  cteName vid ++ " AS (\n            SELECT\n                :app_id AS application_id,\n                "
    ++ natToDec vid
    ++ " AS variable_id,\n                CAST((\n                    "
    ++ code
    ++ "\n                ) AS TEXT) AS value\n        )"

/-- One element of `result_selects`. -/
def resultSelect (vid : Nat) : String :=
  "SELECT *, \x27system\x27 AS calculated_by FROM " ++ cteName vid

/-- One element of `execution_selects`.  The handler builds these strings and
then never uses them: no `INSERT INTO variable_executions` is ever composed or
executed (see C1). -/
def executionSelect (vid : Nat) : String :=
  "SELECT\n            :app_id AS application_id,\n            "
    ++ natToDec vid
    ++ " AS variable_id,\n            \x27system\x27 AS executed_by,\n            value AS result\n        FROM "
    ++ cteName vid

/-- The string `sql_results`: the complete statement text passed to `db.execute`, with
the CTE blocks joined by `",\n"` and the per-variable selects joined by
`"\nUNION ALL\n"`, inside the final (unstripped) f-string. -/
def batchSql (latest : List VariableVersion) : String :=
  let cte_sql := String.intercalate ",\n"
    (latest.map (fun v => cteBlock v.variable_id (normalizeFrag v.sql_script)))
  let results_sql := String.intercalate "\nUNION ALL\n"
    (latest.map (fun v => resultSelect v.variable_id))
  "\n    WITH\n    " ++ cte_sql
    ++ "\n    INSERT INTO variable_results (application_id, variable_id, value, calculated_by)\n    "
    ++ results_sql ++ ";\n    "

/-- A parameterized statement as handed to `db.execute(text(...), params)`. -/
structure SqlStmt where
  text : String
  params : List (String × String)
deriving DecidableEq, Repr

/-- The statement `calculate_variables` executes for a given database and
request: the batch text composed from the resolved latest versions, with the
application id bound as the single parameter `app_id`. -/
def executedStatement (db : DB) (p : VariableCalcRequest) : SqlStmt :=
  { text := batchSql (latestVersions db.variable_versions p.variable_ids),
    params := [("app_id", p.app_id)] }

/-! ### Semantics of executing the batch statement -/

/-- Evaluate every CTE body against the backing store, through the fragment
oracle `ev`: the scalar each `var_{id}` CTE yields for the bound application,
as the pair `(variable_id, value)`.  `none` models the store failing on any
one fragment, which aborts the whole statement. -/
def evalFrags (ev : String → Option String) : List VariableVersion → Option (List (Nat × String))
  | [] => some []
  | v :: rest =>
    match ev (normalizeFrag v.sql_script), evalFrags ev rest with
    | some value, some rs => some ((v.variable_id, value) :: rs)
    | _, _ => none

/-- Does the results table already hold a row for this
`(application_id, variable_id)` pair? -/
def hasPair (tbl : List VariableResult) (app : String) (vid : Nat) : Bool :=
  tbl.any (fun r => r.application_id == app && r.variable_id == vid)

/-- The `INSERT INTO variable_results ... SELECT ... UNION ALL ...` part:
append one row per computed value, in order; the first row that violates the
`uq_app_variable` unique constraint aborts the whole statement (`none`),
leaving the table untouched (the exception fires before `db.commit()`). -/
def insertRows (app : String) (tbl : List VariableResult) :
    List (Nat × String) → Option (List VariableResult)
  | [] => some tbl
  | (vid, value) :: rest =>
    if hasPair tbl app vid then none
    else insertRows app
      (tbl ++ [{ application_id := app, variable_id := vid, value := value,
                 calculated_by := "system" }]) rest

/-- Handler for `POST /api/variables/calculate`.  Empty id list: 400 before any work.  No
latest version resolved at all: 404.  Otherwise run the composed batch
statement (`executedStatement`): every fragment is evaluated and, when all
succeed, one result row per resolved variable is inserted; the response lists
the resolved variable ids.  The handler never touches `variable_executions`. -/
def calculate_variables (db : DB) (p : VariableCalcRequest)
    (ev : String → Option String) : Except ApiErr (DB × CalcResponse) :=
  if p.variable_ids = [] then .error (.badRequest "No variable_ids provided")
  else
    let latest := latestVersions db.variable_versions p.variable_ids
    if latest = [] then .error (.notFound "No variable versions found")
    else
      match evalFrags ev latest with
      | none => .error .executionFailed
      | some vals =>
        match insertRows p.app_id db.variable_results vals with
        | none => .error .integrityViolation
        | some tbl =>
          .ok ({ db with variable_results := tbl },
               { status := "success", application_id := p.app_id,
                 calculated_variables := latest.map (fun v => v.variable_id) })

/-! ### Concrete fixtures used by witnesses and counterexamples -/

/-- An active variable, id 1, named `age`. -/
def demoVar : Variable :=
  { id := 1, name := "age", description := "computes applicant age",
    calculation_type := "live", is_active := true, created_by := "u" }

/-- Version 1 of variable 1, fragment `SELECT 30`. -/
def demoVer : VariableVersion :=
  { variable_id := 1, version_number := 1, sql_script := "SELECT 30",
    change_reason := "Initial version", edited_by := "u" }

/-- One active variable with one version; empty result and execution tables. -/
def demoDB : DB :=
  { vars := [demoVar], variable_versions := [demoVer], variable_results := [],
    variable_executions := [], next_id := 2 }

/-- A fragment oracle for the demo store: `SELECT 30` yields `30`, every other
fragment text makes the store fail. -/
def demoEv : String → Option String :=
  fun s => if s == "SELECT 30" then some "30" else none

/-- The result row a successful demo calculation writes. -/
def demoRow : VariableResult :=
  { application_id := "A1", variable_id := 1, value := "30",
    calculated_by := "system" }

/-- State of `demoDB` after calculating variable 1 for application `A1`. -/
def demoDB2 : DB :=
  { demoDB with variable_results := [demoRow] }

/-- The response of that successful calculation. -/
def demoOut : CalcResponse :=
  { status := "success", application_id := "A1", calculated_variables := [1] }

/-- Copy of `demoVar`, soft-deleted. -/
def inactiveVar : Variable :=
  { demoVar with is_active := false }

/-- Like `demoDB` but the variable is soft-deleted; its version row remains. -/
def dbInactive : DB :=
  { demoDB with vars := [inactiveVar] }

/-- A second active variable, id 2. -/
def otherVar : Variable :=
  { id := 2, name := "income", description := "computes applicant income",
    calculation_type := "live", is_active := true, created_by := "u" }

/-- Version 1 of variable 2, with a fragment the demo store rejects. -/
def badVer : VariableVersion :=
  { variable_id := 2, version_number := 1, sql_script := "BAD",
    change_reason := "Initial version", edited_by := "u" }

/-- Two active variables: variable 1 with a working fragment, variable 2 with
a failing one. -/
def dbTwo : DB :=
  { vars := [demoVar, otherVar], variable_versions := [demoVer, badVer],
    variable_results := [], variable_executions := [], next_id := 3 }

/-- An active variable that (against the creation invariant) has no version
row at all. -/
def dbNoVer : DB :=
  { demoDB with variable_versions := [] }

/-- A fresh, empty database. -/
def dbEmpty : DB :=
  { vars := [], variable_versions := [], variable_results := [],
    variable_executions := [], next_id := 1 }

/-- A creation payload. -/
def createP : VariableCreate :=
  { name := "age", description := "computes applicant age",
    calculation_type := "live", sql_script := "SELECT 30", created_by := "u" }

/-- The variable `create_variable dbEmpty createP` flushes. -/
def seedVar : Variable :=
  { id := 1, name := "age", description := "computes applicant age",
    calculation_type := "live", is_active := true, created_by := "u" }

/-- The version row `create_variable dbEmpty createP` seeds. -/
def seedVer : VariableVersion :=
  { variable_id := 1, version_number := 1, sql_script := "SELECT 30",
    change_reason := "Initial version", edited_by := "u" }

/-- The database committed by `create_variable dbEmpty createP`. -/
def dbSeed : DB :=
  { vars := [seedVar], variable_versions := [seedVer],
    variable_results := [], variable_executions := [], next_id := 2 }

/-- An update payload. -/
def demoUpd : VariableUpdate :=
  { sql_script := "SELECT 31", change_reason := "tweak", edited_by := "u2" }

/-! ### Decimal rendering is injective, hence CTE names are collision-free -/

/-- Read a digit string back as a number. -/
def parseDec (l : List Char) : Nat :=
  l.foldl (fun a c => a * 10 + digitVal c) 0

theorem digitVal_digitChar (d : Nat) (h : d < 10) : digitVal (digitChar d) = d := by
  interval_cases d <;> rfl

theorem parseDec_append_digit (l : List Char) (c : Char) :
    parseDec (l ++ [c]) = parseDec l * 10 + digitVal c := by
  simp [parseDec, List.foldl_append]

theorem parseDec_decDigitsAux (f : Nat) : ∀ n : Nat, n < f →
    parseDec (decDigitsAux f n) = n := by
  induction f with
  | zero => intro n h; omega
  | succ f ih =>
    intro n h
    unfold decDigitsAux
    by_cases h10 : n < 10
    · rw [if_pos h10]
      show 0 * 10 + digitVal (digitChar n) = n
      rw [digitVal_digitChar n h10]; omega
    · rw [if_neg h10]
      have hdiv : n / 10 < f := by
        have := Nat.div_lt_self (show 0 < n by omega) (show 1 < 10 by omega)
        omega
      rw [parseDec_append_digit, ih (n / 10) hdiv,
        digitVal_digitChar (n % 10) (Nat.mod_lt _ (by omega))]
      omega

theorem natToDec_injective : Function.Injective natToDec := by
  intro m n h
  have hd : decDigitsAux (m + 1) m = decDigitsAux (n + 1) n := congrArg String.data h
  have hp := congrArg parseDec hd
  rwa [parseDec_decDigitsAux (m + 1) m (by omega),
    parseDec_decDigitsAux (n + 1) n (by omega)] at hp

theorem cteName_injective (i j : Nat) (h : cteName i = cteName j) : i = j := by
  apply natToDec_injective
  have hd := congrArg String.data h
  simp only [cteName, String.data_append] at hd
  have hl := List.append_cancel_left hd
  exact congrArg String.mk hl

/-! ### Version resolution lemmas -/

theorem contains_eq_true_of_mem {l : List Nat} {a : Nat} (h : a ∈ l) :
    l.contains a = true := by
  induction l with
  | nil => cases h
  | cons b r ih =>
    rw [List.contains_cons, Bool.or_eq_true]
    rcases List.mem_cons.1 h with h1 | h1
    · left; simp [h1]
    · right; exact ih h1

theorem mem_of_contains_eq_true {l : List Nat} {a : Nat} (h : l.contains a = true) :
    a ∈ l := by
  induction l with
  | nil => cases h
  | cons b r ih =>
    rw [List.contains_cons, Bool.or_eq_true] at h
    rcases h with h1 | h1
    · exact List.mem_cons.2 (Or.inl (by simpa using h1.symm))
    · exact List.mem_cons.2 (Or.inr (ih h1))

theorem foldl_max_attained (l : List VariableVersion) : ∀ a : Nat,
    l.foldl (fun m v => max m v.version_number) a = a ∨
    ∃ w ∈ l, l.foldl (fun m v => max m v.version_number) a = w.version_number := by
  induction l with
  | nil => intro a; left; rfl
  | cons v r ih =>
    intro a
    show r.foldl _ (max a v.version_number) = a ∨ ∃ w ∈ v :: r, r.foldl _ (max a v.version_number) = w.version_number
    rcases ih (max a v.version_number) with h | ⟨w, hw, he⟩
    · rcases max_choice a v.version_number with h2 | h2
      · left; rw [h, h2]
      · right; exact ⟨v, List.mem_cons_self v r, by rw [h, h2]⟩
    · right; exact ⟨w, List.mem_cons_of_mem v hw, he⟩

/-- The grouped maximum is attained: a variable that has at least one version
row has a version row carrying the maximal version number. -/
theorem maxVersionNum_attained (vers : List VariableVersion) (vid : Nat)
    (h : ∃ v ∈ vers, v.variable_id = vid) :
    ∃ w ∈ vers, w.variable_id = vid ∧ w.version_number = maxVersionNum vers vid := by
  obtain ⟨v, hv, hvid⟩ := h
  have hmem : v ∈ vers.filter (fun v => v.variable_id == vid) :=
    List.mem_filter.2 ⟨hv, by simp [hvid]⟩
  cases hfl : vers.filter (fun v => v.variable_id == vid) with
  | nil => rw [hfl] at hmem; cases hmem
  | cons v0 r =>
    have hstep : maxVersionNum vers vid
        = r.foldl (fun m v => max m v.version_number) v0.version_number := by
      unfold maxVersionNum
      rw [hfl]
      show r.foldl _ (max 0 v0.version_number) = _
      rw [Nat.zero_max]
    have hv0 : v0 ∈ vers.filter (fun v => v.variable_id == vid) := by
      rw [hfl]; exact List.mem_cons_self v0 r
    rcases foldl_max_attained r v0.version_number with h2 | ⟨w, hw, he⟩
    · refine ⟨v0, (List.mem_filter.1 hv0).1, ?_, ?_⟩
      · simpa using (List.mem_filter.1 hv0).2
      · rw [hstep, h2]
    · have hwf : w ∈ vers.filter (fun v => v.variable_id == vid) := by
        rw [hfl]; exact List.mem_cons_of_mem v0 hw
      refine ⟨w, (List.mem_filter.1 hwf).1, ?_, ?_⟩
      · simpa using (List.mem_filter.1 hwf).2
      · rw [hstep, he]

/-- A requested variable with at least one version row contributes at least
one row to the resolved latest versions. -/
theorem mem_latestVersions_of_has_version (vers : List VariableVersion)
    (ids : List Nat) (vid : Nat) (hid : vid ∈ ids)
    (h : ∃ v ∈ vers, v.variable_id = vid) :
    (latestVersions vers ids).any (fun v => v.variable_id == vid) = true := by
  obtain ⟨w, hw, hwid, hwver⟩ := maxVersionNum_attained vers vid h
  have : w ∈ latestVersions vers ids := by
    refine List.mem_filter.2 ⟨hw, ?_⟩
    rw [Bool.and_eq_true]
    constructor
    · rw [hwid]; exact contains_eq_true_of_mem hid
    · simp [hwid, hwver]
  rw [List.any_eq_true]
  exact ⟨w, this, by simp [hwid]⟩

/-- A requested id with no version rows never appears among the resolved ids:
it is silently dropped, not reported. -/
theorem not_mem_latestVersions_of_no_version (vers : List VariableVersion)
    (ids : List Nat) (vid : Nat) (h : ∀ v ∈ vers, v.variable_id ≠ vid) :
    ((latestVersions vers ids).map (fun v => v.variable_id)).contains vid = false := by
  cases hc : ((latestVersions vers ids).map (fun v => v.variable_id)).contains vid with
  | false => rfl
  | true =>
    exfalso
    obtain ⟨v, hv, hvid⟩ := List.mem_map.1 (mem_of_contains_eq_true hc)
    exact h v (List.mem_filter.1 hv).1 hvid

/-- When no requested id has a version row, the join is empty. -/
theorem latestVersions_eq_nil (vers : List VariableVersion) (ids : List Nat)
    (h : ∀ v ∈ vers, ¬ v.variable_id ∈ ids) :
    latestVersions vers ids = [] := by
  rw [latestVersions, List.filter_eq_nil_iff]
  intro v hv
  have hc : ids.contains v.variable_id = false := by
    cases hcc : ids.contains v.variable_id with
    | false => rfl
    | true => exact absurd (mem_of_contains_eq_true hcc) (h v hv)
  simp [hc]
  exact fun hmem => absurd hmem (h v hv)

theorem pickBest_version_number (r : List VariableVersion) : ∀ a : VariableVersion,
    (pickBest a r).version_number
      = r.foldl (fun m v => max m v.version_number) a.version_number := by
  induction r with
  | nil => intro a; rfl
  | cons w r ih =>
    intro a
    show (pickBest (if a.version_number < w.version_number then w else a) r).version_number
      = r.foldl _ (max a.version_number w.version_number)
    rw [ih]
    congr 1
    by_cases h : a.version_number < w.version_number
    · rw [if_pos h]; exact (Nat.max_eq_right (Nat.le_of_lt h)).symm
    · rw [if_neg h]; exact (Nat.max_eq_left (Nat.le_of_not_lt h)).symm

/-- The query `order_by(version_number.desc()).first()` returns a row carrying the
maximal version number whenever the variable has any version row. -/
theorem latestVersionOf_version_number (vers : List VariableVersion) (vid : Nat)
    (h : vers.filter (fun v => v.variable_id == vid) ≠ []) :
    ∃ lv, latestVersionOf vers vid = some lv
      ∧ lv.version_number = maxVersionNum vers vid := by
  cases hfl : vers.filter (fun v => v.variable_id == vid) with
  | nil => exact absurd hfl h
  | cons v0 r =>
    refine ⟨pickBest v0 r, ?_, ?_⟩
    · rw [latestVersionOf, hfl]
    · rw [pickBest_version_number, maxVersionNum, hfl]
      show _ = r.foldl _ (max 0 v0.version_number)
      rw [Nat.zero_max]

/-! ### Result-insertion lemmas -/

/-- Number of result rows stored for one `(application_id, variable_id)` pair. -/
def countPair (tbl : List VariableResult) (app : String) (vid : Nat) : Nat :=
  tbl.countP (fun r => r.application_id == app && r.variable_id == vid)

theorem hasPair_iff (tbl : List VariableResult) (app : String) (vid : Nat) :
    hasPair tbl app vid = true ↔ 0 < countPair tbl app vid := by
  rw [hasPair, countPair, List.any_eq_true, List.countP_pos_iff]

theorem countPair_append (t1 t2 : List VariableResult) (app : String) (vid : Nat) :
    countPair (t1 ++ t2) app vid = countPair t1 app vid + countPair t2 app vid := by
  rw [countPair, countPair, countPair, List.countP_append]

theorem countPair_single_self (app : String) (vid : Nat) (value : String) :
    countPair [{ application_id := app, variable_id := vid, value := value,
                 calculated_by := "system" }] app vid = 1 := by
  simp [countPair, List.countP_cons]

theorem countPair_single_ne (app : String) (vid w : Nat) (value : String)
    (h : vid ≠ w) :
    countPair [{ application_id := app, variable_id := vid, value := value,
                 calculated_by := "system" }] app w = 0 := by
  simp [countPair, List.countP_cons, h]

/-- A committed insert adds, for every pair, exactly as many rows as the value
list mentions that pair. -/
theorem insertRows_count (app : String) : ∀ (vals : List (Nat × String))
    (tbl tbl2 : List VariableResult), insertRows app tbl vals = some tbl2 →
    ∀ vid, countPair tbl2 app vid
      = countPair tbl app vid + (vals.map Prod.fst).count vid := by
  intro vals
  induction vals with
  | nil =>
    intro tbl tbl2 h vid
    cases h
    simp [List.count_nil]
  | cons q rest ih =>
    intro tbl tbl2 h vid
    obtain ⟨v, s⟩ := q
    rw [insertRows] at h
    cases hp : hasPair tbl app v with
    | true => rw [hp] at h; cases h
    | false =>
      rw [hp, if_neg (by simp)] at h
      rw [ih _ _ h vid, countPair_append]
      by_cases hv : v = vid
      · subst hv
        rw [countPair_single_self]
        simp only [List.map_cons, List.count_cons, beq_self_eq_true, if_true]
        omega
      · rw [countPair_single_ne app v vid s hv]
        simp [List.count_cons, hv, Ne.symm hv]

/-- A committed insert only succeeds when every inserted pair was absent from
the table and occurs exactly once in the value list. -/
theorem insertRows_fresh (app : String) : ∀ (vals : List (Nat × String))
    (tbl tbl2 : List VariableResult), insertRows app tbl vals = some tbl2 →
    ∀ q ∈ vals, countPair tbl app q.1 = 0 ∧ (vals.map Prod.fst).count q.1 = 1 := by
  intro vals
  induction vals with
  | nil => intro tbl tbl2 h q hq; cases hq
  | cons q0 rest ih =>
    intro tbl tbl2 h q hq
    obtain ⟨v, s⟩ := q0
    rw [insertRows] at h
    cases hp : hasPair tbl app v with
    | true => rw [hp] at h; cases h
    | false =>
      rw [hp, if_neg (by simp)] at h
      have htblv : countPair tbl app v = 0 := by
        by_contra hne
        have hpos := (hasPair_iff tbl app v).2 (Nat.pos_of_ne_zero hne)
        rw [hp] at hpos
        cases hpos
      rcases List.mem_cons.1 hq with h1 | h1
      · subst h1
        refine ⟨htblv, ?_⟩
        have hnotrest : ¬ v ∈ rest.map Prod.fst := by
          intro hvr
          obtain ⟨q2, hq2, hq2v⟩ := List.mem_map.1 hvr
          have h0 := (ih _ _ h q2 hq2).1
          rw [hq2v, countPair_append, countPair_single_self] at h0
          omega
        rw [List.map_cons, List.count_cons, List.count_eq_zero.2 hnotrest]
        simp
      · have ⟨h0, h1c⟩ := ih _ _ h q h1
        have hvq : v ≠ q.1 := by
          intro he
          rw [← he, countPair_append, countPair_single_self] at h0
          omega
        constructor
        · rw [countPair_append, countPair_single_ne app v q.1 s hvq] at h0
          omega
        · have hne : ((v, s).1 == q.1) = false := by simp [hvq]
          rw [List.map_cons, List.count_cons, hne]
          simpa using h1c

/-! ### Fragment-evaluation lemmas -/

theorem evalFrags_map_fst (ev : String → Option String) :
    ∀ (l : List VariableVersion) (vals : List (Nat × String)),
    evalFrags ev l = some vals → vals.map Prod.fst = l.map (fun v => v.variable_id) := by
  intro l
  induction l with
  | nil => intro vals h; cases h; rfl
  | cons v rest ih =>
    intro vals h
    rw [evalFrags] at h
    cases hev : ev (normalizeFrag v.sql_script) with
    | none => rw [hev] at h; cases h
    | some value =>
      cases hrest : evalFrags ev rest with
      | none => rw [hev, hrest] at h; cases h
      | some rs =>
        rw [hev, hrest] at h
        cases h
        simp [ih rs hrest]

/-- One failing fragment fails the whole batch statement. -/
theorem evalFrags_none_of_mem (ev : String → Option String)
    (l : List VariableVersion) (v : VariableVersion) (hv : v ∈ l)
    (h : ev (normalizeFrag v.sql_script) = none) : evalFrags ev l = none := by
  induction l with
  | nil => cases hv
  | cons w rest ih =>
    rw [evalFrags]
    rcases List.mem_cons.1 hv with h1 | h1
    · subst h1; rw [h]
    · rw [ih h1]
      cases ev (normalizeFrag w.sql_script) <;> rfl

/-! ### Anatomy of a successful calculation -/

/-- Inversion of the success path of `calculate_variables`: a successful call
went through a non-empty request, a non-empty join, a fully successful batch
evaluation and a conflict-free insert, and only the `variable_results` table
changed. -/
theorem calculate_ok_elim (db : DB) (p : VariableCalcRequest)
    (ev : String → Option String) (db2 : DB) (out : CalcResponse)
    (h : calculate_variables db p ev = .ok (db2, out)) :
    ∃ vals tbl,
      p.variable_ids ≠ []
      ∧ latestVersions db.variable_versions p.variable_ids ≠ []
      ∧ evalFrags ev (latestVersions db.variable_versions p.variable_ids) = some vals
      ∧ insertRows p.app_id db.variable_results vals = some tbl
      ∧ db2 = { db with variable_results := tbl }
      ∧ out = { status := "success", application_id := p.app_id,
                calculated_variables :=
                  (latestVersions db.variable_versions p.variable_ids).map
                    (fun v => v.variable_id) } := by
  simp only [calculate_variables] at h
  by_cases h1 : p.variable_ids = []
  · rw [if_pos h1] at h; cases h
  · rw [if_neg h1] at h
    by_cases h2 : latestVersions db.variable_versions p.variable_ids = []
    · rw [if_pos h2] at h; cases h
    · rw [if_neg h2] at h
      split at h
      · cases h
      · rename_i vals hev
        split at h
        · cases h
        · rename_i tbl hins
          injection h with h3
          injection h3 with h4 h5
          exact ⟨vals, tbl, h1, h2, hev, hins, h4.symm, h5.symm⟩

/-- C2 (corrected): running `calculate` twice for the same
`(application_id, variable_id)` pair leaves exactly one `Result` row for the
pair, but not through upsert semantics: the first successful run leaves
exactly one result row per calculated pair, and the plain
`INSERT` (which has no `ON CONFLICT` clause) violates the `uq_app_variable`
unique constraint, so the recomputation fails instead of overwriting. -/
theorem calculate_recompute_integrity (db : DB) (p : VariableCalcRequest)
    (ev : String → Option String) (db2 : DB) (out : CalcResponse)
    (h : calculate_variables db p ev = .ok (db2, out)) :
    calculate_variables db2 p ev = .error .integrityViolation
    ∧ out.calculated_variables.all
        (fun vid => countPair db2.variable_results p.app_id vid == 1) = true := by
  obtain ⟨vals, tbl, h1, h2, hev, hins, hdb2, hout⟩ := calculate_ok_elim db p ev db2 out h
  subst hdb2
  subst hout
  have hfst : vals.map Prod.fst
      = (latestVersions db.variable_versions p.variable_ids).map (fun v => v.variable_id) :=
    evalFrags_map_fst ev _ vals hev
  have hcount := insertRows_count p.app_id vals db.variable_results tbl hins
  have hfresh := insertRows_fresh p.app_id vals db.variable_results tbl hins
  have hone : ∀ q ∈ vals, countPair tbl p.app_id q.1 = 1 := by
    intro q hq
    have hc := hcount q.1
    have h3 := hfresh q hq
    omega
  constructor
  · simp only [calculate_variables]
    rw [if_neg h1]
    have hproj : ({ db with variable_results := tbl } : DB).variable_versions
        = db.variable_versions := rfl
    rw [hproj, if_neg h2, hev]
    cases hvals : vals with
    | nil =>
      exfalso
      rw [hvals] at hfst
      cases hL : latestVersions db.variable_versions p.variable_ids with
      | nil => exact h2 hL
      | cons l0 L2 => rw [hL] at hfst; cases hfst
    | cons q rest =>
      obtain ⟨v, s⟩ := q
      have hq1 : countPair tbl p.app_id v = 1 := by
        have := hone (v, s) (by rw [hvals]; exact List.mem_cons_self _ rest)
        exact this
      have hp : hasPair tbl p.app_id v = true :=
        (hasPair_iff tbl p.app_id v).2 (by omega)
      simp [insertRows, hp]
  · rw [List.all_eq_true]
    intro vid hvid
    rw [← hfst] at hvid
    obtain ⟨q, hq, hfq⟩ := List.mem_map.1 hvid
    subst hfq
    have hq1 := hone q hq
    simp [hq1]

/-- Crucially, `calculate_variables` never reads the `variables` table: replacing it
wholesale (in particular flipping any `is_active` flag) changes nothing but
the copy of that table carried in the output state. -/
theorem calculate_vars_irrelevant (db : DB) (ws : List Variable)
    (p : VariableCalcRequest) (ev : String → Option String) :
    calculate_variables { db with vars := ws } p ev
      = (calculate_variables db p ev).map (fun r => ({ r.1 with vars := ws }, r.2)) := by
  simp only [calculate_variables]
  by_cases h1 : p.variable_ids = []
  · rw [if_pos h1, if_pos h1]; rfl
  · rw [if_neg h1, if_neg h1]
    by_cases h2 : latestVersions db.variable_versions p.variable_ids = []
    · rw [if_pos h2, if_pos h2]; rfl
    · rw [if_neg h2, if_neg h2]
      split
      · rfl
      · split
        · rfl
        · rfl

/-! ### Claim theorems -/

/-- C1: the claim states that every calculation attempt appends exactly one
`Execution` row to `variable_executions`, with a success row referencing the
version used and the result written.  The code never does: it builds the
`execution_selects` strings and discards them, executing only the insert into
`variable_results`.  Evaluated at the failing input — a successful calculation
of variable 1 for application `A1` — the call succeeds, writes the result row,
and leaves the execution audit table exactly as it was: empty. -/
theorem calculate_success_writes_no_execution_row :
    calculate_variables demoDB ⟨"A1", [1]⟩ demoEv = .ok (demoDB2, demoOut)
    ∧ demoDB2.variable_executions = demoDB.variable_executions
    ∧ demoDB2.variable_executions = [] :=
  ⟨by decide, rfl, rfl⟩

/-- C2 witness: the corrected idempotence statement at the demo input. -/
theorem calculate_recompute_integrity_witness :
    calculate_variables demoDB2 ⟨"A1", [1]⟩ demoEv = .error .integrityViolation
    ∧ demoOut.calculated_variables.all
        (fun vid => countPair demoDB2.variable_results "A1" vid == 1) = true :=
  calculate_recompute_integrity demoDB ⟨"A1", [1]⟩ demoEv demoDB2 demoOut (by decide)

/-- C2 counterexample: the claim says a recomputation overwrites the prior
`Result` (upsert) rather than failing; in fact the second identical call
fails with the unique-constraint violation. -/
theorem calc_twice_fails_counterexample :
    calculate_variables demoDB ⟨"A1", [1]⟩ demoEv = .ok (demoDB2, demoOut)
    ∧ calculate_variables demoDB2 ⟨"A1", [1]⟩ demoEv = .error .integrityViolation :=
  ⟨by decide, by decide⟩

/-- C3 (corrected): a successful `calculate` response has no
succeeded/failed/unresolved partition; its `calculated_variables` field lists
exactly the ids for which a latest version was resolved (each of which has at
least one stored version), so a requested id with no versions is silently
dropped from the response. -/
theorem calc_response_only_resolved (db : DB) (p : VariableCalcRequest)
    (ev : String → Option String) (db2 : DB) (out : CalcResponse)
    (h : calculate_variables db p ev = .ok (db2, out)) :
    out.calculated_variables
      = (latestVersions db.variable_versions p.variable_ids).map (fun v => v.variable_id)
    ∧ out.calculated_variables.all
        (fun i => db.variable_versions.any (fun v => v.variable_id == i)) = true := by
  obtain ⟨vals, tbl, h1, h2, hev, hins, hdb2, hout⟩ := calculate_ok_elim db p ev db2 out h
  subst hout
  refine ⟨rfl, ?_⟩
  rw [List.all_eq_true]
  intro i hi
  obtain ⟨v, hv, hvi⟩ := List.mem_map.1 hi
  rw [List.any_eq_true]
  exact ⟨v, (List.mem_filter.1 hv).1, by simp [hvi]⟩

/-- C3 witness: the corrected response-shape statement at the demo input. -/
theorem calc_response_only_resolved_witness :
    demoOut.calculated_variables
      = (latestVersions demoDB.variable_versions [1, 9999]).map (fun v => v.variable_id)
    ∧ demoOut.calculated_variables.all
        (fun i => demoDB.variable_versions.any (fun v => v.variable_id == i)) = true :=
  calc_response_only_resolved demoDB ⟨"A1", [1, 9999]⟩ demoEv demoDB2 demoOut (by decide)

/-- C3 counterexample: requesting `[1, 9999]` where id 9999 has no stored
versions succeeds and returns `calculated_variables = [1]`; id 9999 appears
nowhere in the response, instead of being accounted for as unresolved. -/
theorem calc_summary_counterexample :
    calculate_variables demoDB ⟨"A1", [1, 9999]⟩ demoEv = .ok (demoDB2, demoOut)
    ∧ demoOut.calculated_variables = [1]
    ∧ demoOut.calculated_variables.contains 9999 = false :=
  ⟨by decide, by decide, by decide⟩

/-- C4 (corrected): version resolution does select, for each requested id, the
version rows carrying the maximal version number, and a requested id with at
least one version always resolves.  But there is no unresolved reporting: a
requested id with zero versions is silently absent from the resolved set, the
`Variable.is_active` flag is never consulted (the whole `variables` table is
irrelevant to `calculate_variables` except for being copied into the output
state), and when no requested id resolves the whole call fails with 404. -/
theorem version_resolution_corrected (vers : List VariableVersion) (ids : List Nat)
    (vid1 vid2 : Nat) (db db3 : DB) (ws : List Variable)
    (p p3 : VariableCalcRequest) (ev : String → Option String)
    (h1 : vid1 ∈ ids) (h2 : ∃ v ∈ vers, v.variable_id = vid1)
    (h3 : ∀ v ∈ vers, v.variable_id ≠ vid2)
    (h4 : p3.variable_ids ≠ [])
    (h5 : ∀ v ∈ db3.variable_versions, ¬ v.variable_id ∈ p3.variable_ids) :
    (latestVersions vers ids).all
        (fun v => ids.contains v.variable_id
          && (v.version_number == maxVersionNum vers v.variable_id)) = true
    ∧ (latestVersions vers ids).any (fun v => v.variable_id == vid1) = true
    ∧ ((latestVersions vers ids).map (fun v => v.variable_id)).contains vid2 = false
    ∧ calculate_variables { db with vars := ws } p ev
        = (calculate_variables db p ev).map (fun r => ({ r.1 with vars := ws }, r.2))
    ∧ calculate_variables db3 p3 ev = .error (.notFound "No variable versions found") := by
  refine ⟨?_, mem_latestVersions_of_has_version vers ids vid1 h1 h2,
    not_mem_latestVersions_of_no_version vers ids vid2 h3,
    calculate_vars_irrelevant db ws p ev, ?_⟩
  · rw [List.all_eq_true]
    intro v hv
    exact (List.mem_filter.1 hv).2
  · simp only [calculate_variables]
    rw [if_neg h4, latestVersions_eq_nil db3.variable_versions p3.variable_ids h5]
    simp

/-- C4 witness: the corrected resolution statement at concrete inputs. -/
theorem version_resolution_corrected_witness :
    (latestVersions dbInactive.variable_versions [1, 9999]).all
        (fun v => ([1, 9999] : List Nat).contains v.variable_id
          && (v.version_number == maxVersionNum dbInactive.variable_versions v.variable_id)) = true
    ∧ (latestVersions dbInactive.variable_versions [1, 9999]).any
        (fun v => v.variable_id == 1) = true
    ∧ ((latestVersions dbInactive.variable_versions [1, 9999]).map
        (fun v => v.variable_id)).contains 9999 = false
    ∧ calculate_variables { dbInactive with vars := [] } ⟨"A1", [1]⟩ demoEv
        = (calculate_variables dbInactive ⟨"A1", [1]⟩ demoEv).map
            (fun r => ({ r.1 with vars := [] }, r.2))
    ∧ calculate_variables dbNoVer ⟨"A1", [1]⟩ demoEv
        = .error (.notFound "No variable versions found") :=
  version_resolution_corrected dbInactive.variable_versions [1, 9999] 1 9999
    dbInactive dbNoVer [] ⟨"A1", [1]⟩ ⟨"A1", [1]⟩ demoEv
    (by decide) ⟨demoVer, by decide, by decide⟩ (by decide) (by decide) (by decide)

/-- C4 counterexample: the claim says an id whose `Variable` is inactive is
reported as unresolved; in fact the soft-deleted variable 1 is resolved and
calculated exactly like an active one. -/
theorem inactive_variable_still_calculated :
    calculate_variables dbInactive ⟨"A1", [1]⟩ demoEv
      = .ok ({ dbInactive with variable_results := [demoRow] }, demoOut)
    ∧ inactiveVar.is_active = false :=
  ⟨by decide, rfl⟩

/-- C5 (corrected): there is no whole-batch-then-per-fragment fallback.  The
batch is one statement; whenever any one resolved fragment fails at the store,
the entire call fails with an execution error: no sibling variable succeeds,
no `Result` row is written, and no per-variable failure report is produced. -/
theorem no_per_fragment_fallback (db : DB) (p : VariableCalcRequest)
    (ev : String → Option String) (v : VariableVersion)
    (hv : v ∈ latestVersions db.variable_versions p.variable_ids)
    (hfail : ev (normalizeFrag v.sql_script) = none) :
    calculate_variables db p ev = .error .executionFailed := by
  have hne : latestVersions db.variable_versions p.variable_ids ≠ [] := by
    intro he; rw [he] at hv; cases hv
  have hids : p.variable_ids ≠ [] := by
    intro he
    apply hne
    rw [he]
    exact latestVersions_eq_nil db.variable_versions []
      (fun w hw => by simp)
  simp only [calculate_variables]
  rw [if_neg hids, if_neg hne, evalFrags_none_of_mem ev _ v hv hfail]

/-- C5 witness: the corrected all-or-nothing statement at the two-variable
demo store. -/
theorem no_per_fragment_fallback_witness :
    calculate_variables dbTwo ⟨"A1", [1, 2]⟩ demoEv = .error .executionFailed :=
  no_per_fragment_fallback dbTwo ⟨"A1", [1, 2]⟩ demoEv badVer (by decide) (by decide)

/-- C5 counterexample: with two requested variables of which only variable 2
has a malformed fragment, variable 1 evaluates fine in isolation, yet the
whole call fails: variable 1 gets no `Result` and the failure is not isolated
to variable 2 in any summary. -/
theorem batch_abort_counterexample :
    demoEv (normalizeFrag demoVer.sql_script) = some "30"
    ∧ calculate_variables dbTwo ⟨"A1", [1, 2]⟩ demoEv = .error .executionFailed :=
  ⟨by decide, by decide⟩

/-- C6: updating an existing active variable that has at least one version
appends exactly one new version row, numbered one more than the previous
maximum version number for that variable, and leaves every existing version
row untouched. -/
theorem update_variable_appends_next_version (db : DB) (vid : Nat)
    (p : VariableUpdate) (var : Variable)
    (h1 : db.vars.find? (fun v => v.id == vid && v.is_active) = some var)
    (h2 : db.variable_versions.filter (fun v => v.variable_id == vid) ≠ []) :
    update_variable db vid p
      = .ok ({ db with variable_versions := db.variable_versions
                ++ [{ variable_id := var.id,
                      version_number := maxVersionNum db.variable_versions vid + 1,
                      sql_script := p.sql_script, change_reason := p.change_reason,
                      edited_by := p.edited_by }] }, var) := by
  obtain ⟨lv, hlv, hver⟩ := latestVersionOf_version_number db.variable_versions vid h2
  simp only [update_variable, h1, hlv, hver]

/-- C6 witness: updating the demo variable appends version 2. -/
theorem update_variable_appends_next_version_witness :
    update_variable demoDB 1 demoUpd
      = .ok ({ demoDB with variable_versions := demoDB.variable_versions
                ++ [{ variable_id := demoVar.id,
                      version_number := maxVersionNum demoDB.variable_versions 1 + 1,
                      sql_script := demoUpd.sql_script,
                      change_reason := demoUpd.change_reason,
                      edited_by := demoUpd.edited_by }] }, demoVar) :=
  update_variable_appends_next_version demoDB 1 demoUpd demoVar (by decide) (by decide)

/-- C7: creation is rejected with the already-exists error whenever any stored
variable — active or soft-deleted — already carries the requested name; the
duplicate check does not filter on `is_active`. -/
theorem create_variable_name_reserved (db : DB) (p : VariableCreate)
    (h : ∃ v ∈ db.vars, v.name = p.name) :
    create_variable db p = .error (.badRequest "Variable with this name already exists") := by
  obtain ⟨v, hv, hn⟩ := h
  have hs : (db.vars.find? (fun v => v.name == p.name)).isSome := by
    rw [List.find?_isSome]
    exact ⟨v, hv, by simp [hn]⟩
  obtain ⟨w, hw⟩ := Option.isSome_iff_exists.1 hs
  simp only [create_variable, hw]

/-- C7 witness: the name of a soft-deleted variable stays reserved. -/
theorem create_variable_name_reserved_witness :
    create_variable dbInactive createP
      = .error (.badRequest "Variable with this name already exists") :=
  create_variable_name_reserved dbInactive createP ⟨inactiveVar, by decide, by decide⟩

/-- C8: composing the batch is deterministic — equal resolved latest versions
give the identical statement text, whatever the rest of the database or the
application id — each fragment is wrapped in a CTE named by the fixed prefix
`var_` plus the variable id, a naming that is injective in the id, and the
application identifier reaches the statement only through the bound parameter
list, never through the text. -/
theorem fragment_composition_sound (db1 db2 : DB) (ids : List Nat)
    (a1 a2 : String) (i j : Nat) (p : VariableCalcRequest)
    (hsame : latestVersions db1.variable_versions ids
      = latestVersions db2.variable_versions ids)
    (hname : cteName i = cteName j) :
    (executedStatement db1 { app_id := a1, variable_ids := ids }).text
      = (executedStatement db2 { app_id := a2, variable_ids := ids }).text
    ∧ i = j
    ∧ (executedStatement db1 p).params = [("app_id", p.app_id)] := by
  refine ⟨?_, cteName_injective i j hname, rfl⟩
  simp only [executedStatement]
  rw [hsame]

/-- C8 witness: two databases with the same versions but different result
tables, and two application ids, produce one and the same statement text. -/
theorem fragment_composition_sound_witness :
    (executedStatement demoDB { app_id := "A1", variable_ids := [1] }).text
      = (executedStatement demoDB2 { app_id := "B2", variable_ids := [1] }).text
    ∧ 7 = 7
    ∧ (executedStatement demoDB ⟨"A1", [1]⟩).params = [("app_id", "A1")] :=
  fragment_composition_sound demoDB demoDB2 [1] "A1" "B2" 7 7 ⟨"A1", [1]⟩ rfl rfl

/-- C9: `get_variable` answers 404 exactly when no row with the requested id
exists at all, and returns the first row with that id even when it is
soft-deleted — the lookup never filters on `is_active`. -/
theorem get_variable_ignores_soft_delete (db db2 : DB) (vid vid2 : Nat)
    (v : Variable)
    (hv : db2.vars.find? (fun w => w.id == vid2) = some v) :
    (get_variable db vid = .error (.notFound "Variable not found")
      ↔ db.vars.all (fun w => w.id != vid) = true)
    ∧ get_variable db2 vid2 = .ok v := by
  constructor
  · have hiff : (get_variable db vid = .error (.notFound "Variable not found"))
        ↔ db.vars.find? (fun w => w.id == vid) = none := by
      cases hf : db.vars.find? (fun w => w.id == vid) with
      | none => simp [get_variable, hf]
      | some w => simp [get_variable, hf]
    rw [hiff, List.find?_eq_none, List.all_eq_true]
    constructor
    · intro hA x hx
      have := hA x hx
      simpa using this
    · intro hA x hx
      have := hA x hx
      simpa using this
  · simp [get_variable, hv]

/-- C9 witness: looking up an absent id answers 404, and looking up the
soft-deleted variable 1 returns it. -/
theorem get_variable_ignores_soft_delete_witness :
    (get_variable demoDB 5 = .error (.notFound "Variable not found")
      ↔ demoDB.vars.all (fun w => w.id != 5) = true)
    ∧ get_variable dbInactive 1 = .ok inactiveVar :=
  get_variable_ignores_soft_delete demoDB dbInactive 5 1 inactiveVar (by decide)

/-- C10: creation commits the new variable together with its version-1 row in
one step, so every created variable starts with a version; and the unguarded
`latest.version_number` access in `update_variable` raises exactly when the
target (active) variable has no version row, so the creation invariant is what
keeps the update path from dereferencing `None`. -/
theorem create_seeds_initial_version (db : DB) (p : VariableCreate)
    (db2 : DB) (var : Variable) (db3 : DB) (vid : Nat) (q : VariableUpdate)
    (w : Variable)
    (h1 : create_variable db p = .ok (db2, var))
    (h2 : db3.vars.find? (fun v => v.id == vid && v.is_active) = some w) :
    db2.variable_versions = db.variable_versions
      ++ [{ variable_id := var.id, version_number := 1,
            sql_script := p.sql_script, change_reason := "Initial version",
            edited_by := p.created_by }]
    ∧ (update_variable db3 vid q = .error .noneAttribute
        ↔ db3.variable_versions.filter (fun v => v.variable_id == vid) = []) := by
  constructor
  · simp only [create_variable] at h1
    cases hf : db.vars.find? (fun v => v.name == p.name) with
    | some v2 => rw [hf] at h1; cases h1
    | none =>
      rw [hf] at h1
      injection h1 with h3
      injection h3 with h4 h5
      rw [← h4, ← h5]
  · constructor
    · intro herr
      simp only [update_variable, h2] at herr
      cases hlv : latestVersionOf db3.variable_versions vid with
      | none =>
        rw [latestVersionOf] at hlv
        cases hfl : db3.variable_versions.filter (fun v => v.variable_id == vid) with
        | nil => rfl
        | cons v0 r => rw [hfl] at hlv; cases hlv
      | some lv => rw [hlv] at herr; cases herr
    · intro hfl
      have hnone : latestVersionOf db3.variable_versions vid = none := by
        rw [latestVersionOf, hfl]
      simp [update_variable, h2, hnone]

/-- C10 witness: creating in an empty database seeds version 1; updating an
active variable without versions raises the `None` dereference. -/
theorem create_seeds_initial_version_witness :
    dbSeed.variable_versions = dbEmpty.variable_versions
      ++ [{ variable_id := seedVar.id, version_number := 1,
            sql_script := createP.sql_script, change_reason := "Initial version",
            edited_by := createP.created_by }]
    ∧ (update_variable dbNoVer 1 demoUpd = .error .noneAttribute
        ↔ dbNoVer.variable_versions.filter (fun v => v.variable_id == 1) = []) :=
  create_seeds_initial_version dbEmpty createP dbSeed seedVar dbNoVer 1 demoUpd
    demoVar (by decide) (by decide)

end Tobias
